import Mathlib

/-!
Verification of the BiliBili hot-video data-collection scripts.

Shallow embedding of the three core modules of the repository:
collect_popular (trending harvester: merge engine, daily store, pagination),
add_negatives (negative-sample harvester: record construction), and
update_snapshots (snapshot backfiller: eligibility gating and bucket fill).

Python dicts with string keys are embedded as association lists in insertion
order; dict lookup is the first match, dict assignment replaces in place when
the key is present and appends otherwise.  Entity records, which the scripts
always build with a fixed key set, are embedded as a structure whose field
types are the types of the values the scripts store there.  Python float
rounding in the like-rate calculator is idealised as exact rational
round-half-to-even.
-/

/-- One engagement snapshot, as written by the harvesters:
a dict with keys ts, view, like, coin holding ints. -/
structure Snapshot where
  ts : Int
  view : Int
  like : Int
  coin : Int
deriving DecidableEq, Repr

/-- One derived-feature entry: a dict with the single key like_rate holding
either a rounded ratio or None. -/
structure Feature where
  like_rate : Option ℚ
deriving DecidableEq, Repr

/-- The uploader sub-dict built by the harvesters: keys mid, name, follower. -/
structure UpInfo where
  mid : Int
  name : String
  follower : Option Int
deriving DecidableEq, Repr

/-- An entity record as built by parse_popular_item, build_negative_record and
merge_video.  Field types are the value types those functions store. -/
structure EntityRecord where
  bvid : String
  aid : Int
  label : Int
  title : String
  url : String
  tid : Option Int
  tname : String
  pubdate : Int
  first_seen_ts : Option Int
  up : UpInfo
  snapshots : List (String × Snapshot)
  features : List (String × Feature)
deriving DecidableEq, Repr

/-- The meta aggregate of a daily store. -/
structure DailyMeta where
  pos_count : Nat
  neg_count : Nat
  total_count : Nat
deriving DecidableEq, Repr

/-- One per-category aggregate entry of category_stats. -/
structure CatStat where
  tname : String
  video_count : Nat
deriving DecidableEq, Repr

/-- A daily store document, as built by build_daily_skeleton and mutated by
the three harvesters before each atomic write. -/
structure Daily where
  date : String
  capture_ts : Int
  source : String
  count : Nat
  category_stats : List (String × CatStat)
  meta : DailyMeta
  videos : List EntityRecord
deriving DecidableEq, Repr

/-- The owner sub-dict of an upstream feed item; both keys optional. -/
structure OwnerObj where
  mid : Option Int
  name : Option String
deriving DecidableEq, Repr

/-- An upstream feed item with every key the scripts read, each optional,
mirroring dict.get on an arbitrary JSON object. -/
structure FeedItem where
  bvid : Option String
  aid : Option Int
  id : Option Int
  tid : Option Int
  tname : Option String
  title : Option String
  pubdate : Option Int
  ctime : Option Int
  mid : Option Int
  author : Option String
  owner : Option OwnerObj
deriving DecidableEq, Repr

/-- Python expression x or d for an optional int x: first truthy value,
where None and 0 are falsy. -/
def pyOrInt (a : Option Int) (b : Int) : Int :=
  match a with
  | some n => if n = 0 then b else n
  | none => b

/-- Python expression x or d for an optional string x: first truthy value,
where None and the empty string are falsy. -/
def pyOrStr (a : Option String) (b : String) : String :=
  match a with
  | some s => if s = "" then b else s
  | none => b

/-- Python str.strip with no argument: drop leading and trailing whitespace
characters. -/
def pyStrip (s : String) : String :=
  String.mk (((s.data.dropWhile Char.isWhitespace).reverse.dropWhile
    Char.isWhitespace).reverse)

/-- Python emptiness test v is None or v equals the empty string or v equals
zero, specialised to int-valued fields. -/
def intEmpty (n : Int) : Bool := n == 0

/-- The same emptiness test specialised to string-valued fields. -/
def strEmpty (s : String) : Bool := s == ""

/-- The same emptiness test specialised to fields that hold an int or None. -/
def optIntEmpty (o : Option Int) : Bool :=
  match o with
  | none => true
  | some n => n == 0

/-- The fill-if-empty rule of merge_video: take the new value only when the
old one is empty and the new one is not. -/
def fillIfEmpty {α : Type} (isEmptyV : α → Bool) (ov nv : α) : α :=
  if isEmptyV ov && !(isEmptyV nv) then nv else ov

/-- Python dict union keeping existing keys, as in merge_video: start from a
copy of old and append each key of new that is not yet present, in the
iteration order of new. -/
def dictUnionKeepOld {α : Type} (old new : List (String × α)) : List (String × α) :=
  new.foldl (fun acc kv => if (acc.lookup kv.1).isSome then acc else acc ++ [kv]) old

/-- Replacement of the value stored at a key, keeping its position, as Python
dict assignment does when the key is present. -/
def updateAssoc {α : Type} (l : List (String × α)) (k : String) (v : α) :
    List (String × α) :=
  l.map (fun kv => if kv.1 = k then (kv.1, v) else kv)

/-- Python dict assignment d[k] = v: replace in place when k is present,
append otherwise. -/
def dictAssign {α : Type} (l : List (String × α)) (k : String) (v : α) :
    List (String × α) :=
  if (l.lookup k).isSome then updateAssoc l k v else l ++ [(k, v)]

/-- Rounding of a rational to the nearest integer, ties to even, the exact
counterpart of Python round on a float value. -/
def rhe (q : ℚ) : ℤ :=
  let f := Rat.floor q
  let r := q - (f : ℚ)
  if r < 1 / 2 then f
  else if 1 / 2 < r then f + 1
  else if f % 2 = 0 then f else f + 1

/-- Rounding to six fractional digits, the exact counterpart of
round(x, 6) in the like-rate calculators. -/
def round6 (q : ℚ) : ℚ := ((rhe (q * 1000000) : ℚ)) / 1000000

/-- The first_seen_ts rule of merge_video: an absent side is no constraint,
otherwise the minimum of the two timestamps. -/
def mergeFirstSeen : Option Int → Option Int → Option Int
  | none, b => b
  | some a, none => some a
  | some a, some b => some (min a b)

namespace CollectPopular

/-- The like_rate function of collect_popular: None when the numerator or the
denominator is missing or the denominator is not positive, otherwise the
ratio rounded to six digits. -/
def like_rate (like view : Option Int) : Option ℚ :=
  match like, view with
  | none, _ => none
  | some _, none => none
  | some l, some v => if v ≤ 0 then none else some (round6 ((l : ℚ) / (v : ℚ)))

/-- The merge_video function of collect_popular, field by field:
label is the boolean-or over the pair, first_seen_ts the minimum,
scalar identity fields and uploader sub-fields follow fill-if-empty,
snapshots and features are the key union in which old wins. -/
def merge_video (old new : EntityRecord) : EntityRecord :=
  { bvid := old.bvid
    aid := fillIfEmpty intEmpty old.aid new.aid
    label := if old.label = 1 ∨ new.label = 1 then 1 else 0
    title := fillIfEmpty strEmpty old.title new.title
    url := fillIfEmpty strEmpty old.url new.url
    tid := fillIfEmpty optIntEmpty old.tid new.tid
    tname := fillIfEmpty strEmpty old.tname new.tname
    pubdate := fillIfEmpty intEmpty old.pubdate new.pubdate
    first_seen_ts := mergeFirstSeen old.first_seen_ts new.first_seen_ts
    up := { mid := fillIfEmpty intEmpty old.up.mid new.up.mid
            name := fillIfEmpty strEmpty old.up.name new.up.name
            follower := fillIfEmpty optIntEmpty old.up.follower new.up.follower }
    snapshots := dictUnionKeepOld old.snapshots new.snapshots
    features := dictUnionKeepOld old.features new.features }

/-- One step of the category_stats fold of recompute_daily_stats: skip a
record with no tid, create the entry with count one on first sight, else
fill an empty stored tname and increment the count in place. -/
def catStep (cat : List (String × CatStat)) (v : EntityRecord) :
    List (String × CatStat) :=
  match v.tid with
  | none => cat
  | some tid =>
    let tid_s := toString tid
    let tname := v.tname
    match cat.lookup tid_s with
    | none => cat ++ [(tid_s, { tname := tname, video_count := 1 })]
    | some c =>
      let newT := if c.tname = "" ∧ tname ≠ "" then tname else c.tname
      updateAssoc cat tid_s { tname := newT, video_count := c.video_count + 1 }

/-- The recompute_daily_stats function, identical copies of which appear in
all three scripts: count and meta are recomputed from videos, and
category_stats is rebuilt from scratch. -/
def recompute_daily_stats (daily : Daily) : Daily :=
  let videos := daily.videos
  let pos := videos.countP (fun v => v.label == 1)
  let neg := videos.countP (fun v => v.label == 0)
  { daily with
    count := videos.length
    meta := { pos_count := pos, neg_count := neg, total_count := videos.length }
    category_stats := videos.foldl catStep [] }

/-- The build_daily_skeleton function of collect_popular. -/
def build_daily_skeleton (day : String) (capture_ts : Int) : Daily :=
  { date := day
    capture_ts := capture_ts
    source := "bilibili_popular"
    count := 0
    category_stats := []
    meta := { pos_count := 0, neg_count := 0, total_count := 0 }
    videos := [] }

/-- The load_or_init_daily function of collect_popular: when the document for
the day exists it is kept but its date is reset and its capture_ts is
overwritten with the timestamp of the current run, otherwise a fresh
skeleton is built. -/
def load_or_init_daily (existing : Option Daily) (day : String) (capture_ts : Int) :
    Daily :=
  match existing with
  | some d => { d with date := day, capture_ts := capture_ts }
  | none => build_daily_skeleton day capture_ts

/-- The statement daily[capture_ts] = capture_ts executed near the end of the
main functions of add_negatives and update_snapshots before the atomic
write. -/
def set_capture_ts (daily : Daily) (ts : Int) : Daily :=
  { daily with capture_ts := ts }

/-- Outcome of one page request of the trending feed, as the main loop of
collect_popular distinguishes them: network exception, HTTP 404, JSON decode
failure, non-zero API code, or a payload whose data.list is the given list. -/
inductive PageResp : Type
  | netErr : PageResp
  | notFound : PageResp
  | badJson : PageResp
  | apiError : Int → PageResp
  | ok : List FeedItem → PageResp
deriving DecidableEq, Repr

/-- The page limit PN_MAX of collect_popular. -/
def PN_MAX : Nat := 100

/-- Whether the loop body breaks after this page: only a successful payload
whose data.list is empty does; every failure outcome just continues. -/
def stopAfter : PageResp → Bool
  | PageResp.ok items => items.isEmpty
  | _ => false

/-- The pagination loop of collect_popular main, recorded as the list of page
numbers it requests: every failure outcome skips to the next page, a payload
with an empty data.list breaks the loop, a non-empty one continues. -/
def crawlFrom (feed : Nat → PageResp) : Nat → Nat → List Nat
  | _, 0 => []
  | pn, Nat.succ fuel =>
    pn :: (if stopAfter (feed pn) then [] else crawlFrom feed (pn + 1) fuel)

/-- The pages requested by one run of the trending harvester, pn ranging
from 1 to PN_MAX. -/
def requestedPages (feed : Nat → PageResp) : List Nat :=
  crawlFrom feed 1 PN_MAX

end CollectPopular

namespace UpdateSnapshots

/-- The DELTAS table of update_snapshots: bucket key and delay in seconds. -/
def DELTAS : List (String × Int) := [("1h", 3600), ("3h", 3 * 3600), ("6h", 6 * 3600)]

/-- The eligible function of update_snapshots: a record with a non-positive
pubdate is never eligible, otherwise the bucket is eligible once the current
time has reached pubdate plus the delay. -/
def eligible (pubdate now_ts delta_s : Int) : Bool :=
  if pubdate ≤ 0 then false else now_ts ≥ pubdate + delta_s

/-- The like_rate function of update_snapshots: None for a non-positive view
count, otherwise the ratio rounded to six digits. -/
def like_rate (like view : Int) : Option ℚ :=
  if view ≤ 0 then none else some (round6 ((like : ℚ) / (view : ℚ)))

/-- The stat payload returned by get_stat_by_bvid, each counter read with
dict.get and hence optional. -/
structure StatData where
  view : Option Int
  like : Option Int
  coin : Option Int
deriving DecidableEq, Repr

/-- The per-run counters printed by update_snapshots main. -/
structure BackfillCounters where
  updated : Nat
  skipped_early : Nat
  skipped_exists : Nat
  failed : Nat
deriving DecidableEq, Repr

/-- One step of the first scan over DELTAS in update_snapshots main: a bucket
already present is passed over, an ineligible missing bucket increments
skipped_early, an eligible missing one sets need_any. -/
def preStep (snaps : List (String × Snapshot)) (pubdate now_ts : Int)
    (acc : Bool × Nat) (kd : String × Int) : Bool × Nat :=
  if (snaps.lookup kd.1).isSome then acc
  else if eligible pubdate now_ts kd.2 then (true, acc.2)
  else (acc.1, acc.2 + 1)

/-- The first scan over DELTAS: returns need_any and the skipped_early
increment contributed by this record. -/
def preScan (snaps : List (String × Snapshot)) (pubdate now_ts : Int) : Bool × Nat :=
  DELTAS.foldl (preStep snaps pubdate now_ts) (false, 0)

/-- The evolving snapshot and feature maps and counters of the fill loop. -/
structure FillState where
  snapshots : List (String × Snapshot)
  features : List (String × Feature)
  updated : Nat
  skipped_exists : Nat
deriving DecidableEq, Repr

/-- One step of the fill loop of update_snapshots main: an already present
bucket increments skipped_exists, an ineligible one is skipped, an eligible
missing one gets its snapshot and feature written and updated incremented. -/
def fillStep (pubdate now_ts view like coin : Int) (st : FillState)
    (kd : String × Int) : FillState :=
  if (st.snapshots.lookup kd.1).isSome then
    { st with skipped_exists := st.skipped_exists + 1 }
  else if eligible pubdate now_ts kd.2 then
    { snapshots := dictAssign st.snapshots kd.1
        { ts := now_ts, view := view, like := like, coin := coin }
      features := dictAssign st.features kd.1 { like_rate := like_rate like view }
      updated := st.updated + 1
      skipped_exists := st.skipped_exists }
  else st

/-- The per-record body of update_snapshots main: scan for a needed bucket,
bail out unchanged when none is needed, when the bvid is blank, or when the
stat fetch failed, otherwise fill every eligible missing bucket from the one
fetched stat payload. -/
def processVideo (now_ts : Int) (stat : Option StatData) (v : EntityRecord) :
    EntityRecord × BackfillCounters :=
  let pubdate := v.pubdate
  let bvid := pyStrip v.bvid
  let pre := preScan v.snapshots pubdate now_ts
  if pre.1 = false then
    (v, { updated := 0, skipped_early := pre.2, skipped_exists := 0, failed := 0 })
  else if bvid = "" then
    (v, { updated := 0, skipped_early := pre.2, skipped_exists := 0, failed := 1 })
  else
    match stat with
    | none => (v, { updated := 0, skipped_early := pre.2, skipped_exists := 0, failed := 1 })
    | some sd =>
      let view := sd.view.getD 0
      let like := sd.like.getD 0
      let coin := sd.coin.getD 0
      let fs := DELTAS.foldl (fillStep pubdate now_ts view like coin)
        { snapshots := v.snapshots, features := v.features,
          updated := 0, skipped_exists := 0 }
      ({ v with snapshots := fs.snapshots, features := fs.features },
       { updated := fs.updated, skipped_early := pre.2,
         skipped_exists := fs.skipped_exists, failed := 0 })

end UpdateSnapshots

namespace AddNegatives

/-- The build_negative_record function of add_negatives: an item with no bvid
is dropped, otherwise a label-zero record with empty snapshot and feature
maps is built; a missing pubdate and ctime default the publish timestamp
to zero. -/
def build_negative_record (item : FeedItem) (capture_ts : Int) :
    Option EntityRecord :=
  match item.bvid with
  | none => none
  | some b =>
    if b = "" then none
    else
      some
        { bvid := b
          aid := pyOrInt item.aid (pyOrInt item.id 0)
          label := 0
          title := pyOrStr item.title ""
          url := "https://www.bilibili.com/video/" ++ b
          tid := item.tid
          tname := pyOrStr item.tname ""
          pubdate := pyOrInt item.pubdate (pyOrInt item.ctime 0)
          first_seen_ts := some capture_ts
          up := { mid := pyOrInt (match item.owner with
                                  | none => none
                                  | some o => o.mid) (pyOrInt item.mid 0)
                  name := pyOrStr (match item.owner with
                                   | none => none
                                   | some o => o.name) (pyOrStr item.author "")
                  follower := none }
          snapshots := []
          features := [] }

end AddNegatives

/-- Sample snapshot used as stored trending-bucket content. -/
def exSnap0 : Snapshot := { ts := 10, view := 100, like := 7, coin := 2 }

/-- Sample snapshot a later observation would offer for the same bucket. -/
def exSnapClash : Snapshot := { ts := 99, view := 999, like := 70, coin := 20 }

/-- Sample uploader info. -/
def exUp : UpInfo := { mid := 42, name := "alice", follower := none }

/-- Sample stored record with label one and a filled trending bucket. -/
def exRec1 : EntityRecord :=
  { bvid := "BV1x", aid := 11, label := 1, title := "t", url := "u"
    tid := some 5, tname := "music", pubdate := 50, first_seen_ts := some 10
    up := exUp, snapshots := [("0h", exSnap0)]
    features := [("0h", { like_rate := some (7 / 100 : ℚ) })] }

/-- Sample later observation of the same entity with label zero and a
conflicting trending bucket plus a fresh one-hour bucket. -/
def exRec0 : EntityRecord :=
  { bvid := "BV1x", aid := 11, label := 0, title := "t", url := "u"
    tid := some 5, tname := "music", pubdate := 50, first_seen_ts := some 20
    up := exUp
    snapshots := [("0h", exSnapClash), ("1h", { ts := 99, view := 500, like := 9, coin := 1 })]
    features := [("0h", { like_rate := none }), ("1h", { like_rate := none })] }

/-- Sample record with pubdate zero, as built for a feed item lacking a
publish timestamp. -/
def exRecNoPub : EntityRecord :=
  { bvid := "BV2y", aid := 12, label := 0, title := "", url := "u2"
    tid := some 6, tname := "", pubdate := 0, first_seen_ts := some 30
    up := exUp, snapshots := [], features := [] }

/-- Sample record with a trusted publish timestamp and no snapshots yet. -/
def exRecPub : EntityRecord :=
  { bvid := "BV3z", aid := 13, label := 0, title := "", url := "u3"
    tid := some 6, tname := "", pubdate := 1, first_seen_ts := some 30
    up := exUp, snapshots := [], features := [] }

/-- Sample stat payload returned by the stat endpoint. -/
def exStat : UpdateSnapshots.StatData :=
  { view := some 200, like := some 40, coin := some 3 }

/-- Sample feed item lacking a bvid complement: it has a bvid but neither a
pubdate nor a ctime. -/
def exItemNoPub : FeedItem :=
  { bvid := some "BV9q", aid := some 77, id := none, tid := some 6
    tname := some "tech", title := some "hello", pubdate := none, ctime := none
    mid := some 8, author := some "bob", owner := none }

/-- Sample feed item placed on the non-empty pages of the trending feed. -/
def exItem : FeedItem :=
  { bvid := some "BV5p", aid := some 1, id := none, tid := some 5
    tname := some "music", title := some "x", pubdate := some 40, ctime := none
    mid := some 2, author := some "carol", owner := none }

/-- Sample trending feed: pages one and two hold one item each, every later
page has an empty list. -/
def exFeed : Nat → CollectPopular.PageResp :=
  fun pn => if pn ≤ 2 then CollectPopular.PageResp.ok [exItem]
            else CollectPopular.PageResp.ok []

/-- Sample daily store holding the two sample records. -/
def exDaily : Daily :=
  { date := "2025-01-01", capture_ts := 100, source := "bilibili_popular"
    count := 0, category_stats := [], meta := { pos_count := 0, neg_count := 0, total_count := 0 }
    videos := [exRec1, exRecNoPub] }

/-- Unfolding of association-list lookup over a cons cell. -/
theorem lookup_cons {α : Type} (k a : String) (b : α) (rest : List (String × α)) :
    (((a, b) :: rest).lookup k) = if k = a then some b else rest.lookup k := by
  by_cases hk : k = a
  · subst hk
    simp [List.lookup]
  · have hbeq : (k == a) = false := by simpa using hk
    simp [List.lookup, hbeq, hk]

/-- Lookup in a singleton association list. -/
theorem lookup_singleton {α : Type} (k a : String) (v : α) :
    (([(a, v)] : List (String × α)).lookup k) = if k = a then some v else none := by
  rw [lookup_cons]
  rfl

/-- Lookup distributes over append when the key is found on the left. -/
theorem lookup_append_some {α : Type} {k : String} {l₁ : List (String × α)}
    (l₂ : List (String × α)) {v : α} (h : l₁.lookup k = some v) :
    ((l₁ ++ l₂).lookup k) = some v := by
  induction l₁ with
  | nil => simp at h
  | cons kv rest ih =>
    obtain ⟨a, b⟩ := kv
    rw [List.cons_append, lookup_cons]
    rw [lookup_cons] at h
    by_cases hk : k = a
    · simpa [hk] using h
    · rw [if_neg hk] at h ⊢
      exact ih h

/-- Lookup distributes over append when the key is missing on the left. -/
theorem lookup_append_none {α : Type} {k : String} {l₁ : List (String × α)}
    (l₂ : List (String × α)) (h : l₁.lookup k = none) :
    ((l₁ ++ l₂).lookup k) = l₂.lookup k := by
  induction l₁ with
  | nil => simp
  | cons kv rest ih =>
    obtain ⟨a, b⟩ := kv
    rw [List.cons_append, lookup_cons]
    rw [lookup_cons] at h
    by_cases hk : k = a
    · simp [hk] at h
    · rw [if_neg hk] at h ⊢
      exact ih h

/-- Membership of a pair makes lookup of its key succeed. -/
theorem lookup_isSome_of_mem {α : Type} {k : String} {v : α}
    {l : List (String × α)} (h : (k, v) ∈ l) : (l.lookup k).isSome := by
  induction l with
  | nil => simp at h
  | cons kv rest ih =>
    obtain ⟨a, b⟩ := kv
    rw [lookup_cons]
    by_cases hk : k = a
    · simp [hk]
    · rw [if_neg hk]
      rcases List.mem_cons.mp h with heq | hmem
      · exact absurd (congrArg Prod.fst heq) hk
      · exact ih hmem

/-- Unfolding of the keep-old union over a cons cell. -/
theorem dictUnionKeepOld_cons {α : Type} (old : List (String × α))
    (kv : String × α) (rest : List (String × α)) :
    dictUnionKeepOld old (kv :: rest)
      = dictUnionKeepOld (if (old.lookup kv.1).isSome then old else old ++ [kv]) rest := rfl

/-- The keep-old union over an empty new map is the old map. -/
theorem dictUnionKeepOld_nil {α : Type} (old : List (String × α)) :
    dictUnionKeepOld old [] = old := rfl

/-- A key present in the old map keeps its old value under the union. -/
theorem dictUnionKeepOld_lookup_left {α : Type} {k : String} {v : α}
    {old : List (String × α)} (new : List (String × α))
    (h : old.lookup k = some v) : ((dictUnionKeepOld old new).lookup k) = some v := by
  induction new generalizing old with
  | nil => simpa [dictUnionKeepOld_nil] using h
  | cons kv rest ih =>
    rw [dictUnionKeepOld_cons]
    by_cases hs : (old.lookup kv.1).isSome
    · simpa [hs] using ih h
    · simp only [hs, if_false]
      exact ih (lookup_append_some _ h)

/-- A key absent from the old map takes its value in the new map under the
union. -/
theorem dictUnionKeepOld_lookup_right {α : Type} {k : String}
    {old : List (String × α)} (new : List (String × α))
    (h : old.lookup k = none) :
    ((dictUnionKeepOld old new).lookup k) = new.lookup k := by
  induction new generalizing old with
  | nil => simpa [dictUnionKeepOld_nil] using h
  | cons kv rest ih =>
    obtain ⟨a, b⟩ := kv
    rw [dictUnionKeepOld_cons, lookup_cons]
    by_cases hk : k = a
    · subst hk
      have hs : ¬ (old.lookup k).isSome := by simp [h]
      simp only [hs, if_false, if_pos rfl]
      have hone : ((old ++ [(k, b)]).lookup k) = some b := by
        rw [lookup_append_none _ h, lookup_singleton, if_pos rfl]
      exact dictUnionKeepOld_lookup_left rest hone
    · rw [if_neg hk]
      by_cases hs : (old.lookup a).isSome
      · simpa [hs] using ih h
      · rw [if_neg hs]
        refine ih ?_
        rw [lookup_append_none _ h, lookup_singleton, if_neg hk]

/-- The keep-old union changes nothing when every key of the new map is
already present in the old one. -/
theorem dictUnionKeepOld_self {α : Type} {old : List (String × α)}
    {new : List (String × α)} (h : ∀ kv ∈ new, (old.lookup kv.1).isSome) :
    dictUnionKeepOld old new = old := by
  induction new with
  | nil => rfl
  | cons kv rest ih =>
    rw [dictUnionKeepOld_cons]
    have hs : (old.lookup kv.1).isSome := h kv (List.mem_cons_self _ _)
    simp only [hs, if_true]
    exact ih (fun kv2 hm => h kv2 (List.mem_cons_of_mem _ hm))

/-- Unfolding of in-place replacement over a cons cell. -/
theorem updateAssoc_cons {α : Type} (a k : String) (b v : α)
    (rest : List (String × α)) :
    updateAssoc ((a, b) :: rest) k v
      = (if a = k then (a, v) else (a, b)) :: updateAssoc rest k v := by
  by_cases ha : a = k <;> simp [updateAssoc, ha]

/-- In-place value replacement answers the new value at the replaced key
whenever that key was present. -/
theorem updateAssoc_lookup_self {α : Type} {k : String} {l : List (String × α)}
    (v : α) (h : (l.lookup k).isSome) : ((updateAssoc l k v).lookup k) = some v := by
  induction l with
  | nil => simp at h
  | cons kv rest ih =>
    obtain ⟨a, b⟩ := kv
    rw [lookup_cons] at h
    rw [updateAssoc_cons]
    by_cases hk : k = a
    · subst hk
      rw [if_pos rfl, lookup_cons, if_pos rfl]
    · have hne : ¬ a = k := fun hc => hk hc.symm
      rw [if_neg hne, lookup_cons, if_neg hk]
      rw [if_neg hk] at h
      exact ih h

/-- In-place value replacement leaves every other key unchanged. -/
theorem updateAssoc_lookup_ne {α : Type} {k k2 : String} {l : List (String × α)}
    (v : α) (h : k2 ≠ k) : ((updateAssoc l k v).lookup k2) = l.lookup k2 := by
  induction l with
  | nil => rfl
  | cons kv rest ih =>
    obtain ⟨a, b⟩ := kv
    rw [updateAssoc_cons]
    by_cases ha : a = k
    · have h2 : k2 ≠ a := by rw [ha]; exact h
      rw [if_pos ha, lookup_cons, lookup_cons, if_neg h2, if_neg h2]
      exact ih
    · rw [if_neg ha, lookup_cons, lookup_cons]
      by_cases hk2 : k2 = a
      · rw [if_pos hk2, if_pos hk2]
      · rw [if_neg hk2, if_neg hk2]
        exact ih

/-- Dict assignment answers the assigned value at the assigned key. -/
theorem dictAssign_lookup_self {α : Type} (k : String) (l : List (String × α))
    (v : α) : ((dictAssign l k v).lookup k) = some v := by
  by_cases hs : (l.lookup k).isSome
  · rw [dictAssign, if_pos hs]
    exact updateAssoc_lookup_self v hs
  · rw [dictAssign, if_neg hs]
    have hnone : l.lookup k = none := by
      cases hl : l.lookup k
      · rfl
      · exact absurd (by simp [hl]) hs
    rw [lookup_append_none _ hnone, lookup_singleton, if_pos rfl]

/-- Dict assignment leaves every other key unchanged. -/
theorem dictAssign_lookup_ne {α : Type} {k k2 : String} (l : List (String × α))
    (v : α) (h : k2 ≠ k) : ((dictAssign l k v).lookup k2) = l.lookup k2 := by
  by_cases hs : (l.lookup k).isSome
  · rw [dictAssign, if_pos hs]
    exact updateAssoc_lookup_ne v h
  · rw [dictAssign, if_neg hs]
    cases hl : l.lookup k2
    · rw [lookup_append_none _ hl, lookup_singleton, if_neg h]
    · exact lookup_append_some _ hl

/-- The fill-if-empty rule is the identity when both sides agree. -/
theorem fillIfEmpty_self {α : Type} (e : α → Bool) (a : α) : fillIfEmpty e a a = a := by
  simp [fillIfEmpty]

/-- The first-seen rule is the identity when both sides agree. -/
theorem mergeFirstSeen_self (o : Option Int) : mergeFirstSeen o o = o := by
  cases o <;> simp [mergeFirstSeen]

/-- The keep-old union of a map with itself is that map. -/
theorem dictUnionKeepOld_idem {α : Type} (l : List (String × α)) :
    dictUnionKeepOld l l = l := by
  refine dictUnionKeepOld_self (fun kv hm => ?_)
  obtain ⟨a, b⟩ := kv
  exact lookup_isSome_of_mem hm

/-- The label computed by merge_video, read off its definition. -/
theorem merge_label_cases (old new : EntityRecord) :
    (CollectPopular.merge_video old new).label
      = if old.label = 1 ∨ new.label = 1 then 1 else 0 := rfl

/-- A stored label of one survives any further fold of merges. -/
theorem foldl_merge_label_one (obs : List EntityRecord) :
    ∀ old : EntityRecord, old.label = 1 →
      ((obs.foldl CollectPopular.merge_video old).label) = 1 := by
  induction obs with
  | nil => intro old h; exact h
  | cons o rest ih =>
    intro old h
    rw [List.foldl_cons]
    exact ih _ (by rw [merge_label_cases, if_pos (Or.inl h)])

/-- Counting label-one and label-zero records adds up to the length when
every label is zero or one. -/
theorem countP_label_split (l : List EntityRecord)
    (h : ∀ v ∈ l, v.label = 0 ∨ v.label = 1) :
    l.countP (fun v => v.label == 1) + l.countP (fun v => v.label == 0) = l.length := by
  induction l with
  | nil => rfl
  | cons v rest ih =>
    have hv := h v (List.mem_cons_self _ _)
    have hrest := ih (fun x hx => h x (List.mem_cons_of_mem _ hx))
    rw [List.countP_cons, List.countP_cons, List.length_cons]
    rcases hv with h0 | h1
    · simp only [h0]
      norm_num
      omega
    · simp only [h1]
      norm_num
      omega

/-- C1.  For every pair of records with the same key and every bucket key k
present in the old snapshots, the merged snapshots agree with the old map at
k whatever the new map holds there, bucket keys absent from the old map are
taken from the new one, and the same holds for the features mapping. -/
theorem C1_snapshot_non_destruction (old new : EntityRecord) (k : String) :
    (∀ s, old.snapshots.lookup k = some s →
        ((CollectPopular.merge_video old new).snapshots.lookup k) = some s) ∧
    (old.snapshots.lookup k = none →
        ((CollectPopular.merge_video old new).snapshots.lookup k)
          = new.snapshots.lookup k) ∧
    (∀ f, old.features.lookup k = some f →
        ((CollectPopular.merge_video old new).features.lookup k) = some f) ∧
    (old.features.lookup k = none →
        ((CollectPopular.merge_video old new).features.lookup k)
          = new.features.lookup k) := by
  refine ⟨fun s hs => ?_, fun hn => ?_, fun f hf => ?_, fun hn => ?_⟩
  · exact dictUnionKeepOld_lookup_left _ hs
  · exact dictUnionKeepOld_lookup_right _ hn
  · exact dictUnionKeepOld_lookup_left _ hf
  · exact dictUnionKeepOld_lookup_right _ hn

/-- Witness for C1 at concrete records: the stored trending bucket survives a
merge with a conflicting observation, and the fresh one-hour bucket of the
new observation is added. -/
theorem C1_witness :
    ((CollectPopular.merge_video exRec1 exRec0).snapshots.lookup "0h") = some exSnap0 := by
  exact (C1_snapshot_non_destruction exRec1 exRec0 "0h").1 exSnap0 (by decide)

/-- C2.  Merging a well-formed record with itself gives back that record, so
re-running a harvester with identical output leaves the stored record
unchanged.  The label field of a record is zero or one by the data model. -/
theorem C2_merge_idempotent (R : EntityRecord) (h : R.label = 0 ∨ R.label = 1) :
    CollectPopular.merge_video R R = R := by
  obtain ⟨bvid, aid, label, title, url, tid, tname, pubdate, fst, up, snaps, feats⟩ := R
  obtain ⟨umid, uname, ufoll⟩ := up
  rcases h with h0 | h1
  · have h0b : label = 0 := h0
    subst h0b
    simp [CollectPopular.merge_video, fillIfEmpty_self, mergeFirstSeen_self,
      dictUnionKeepOld_idem]
  · have h1b : label = 1 := h1
    subst h1b
    simp [CollectPopular.merge_video, fillIfEmpty_self, mergeFirstSeen_self,
      dictUnionKeepOld_idem]

/-- Witness for C2 at a concrete record. -/
theorem C2_witness : CollectPopular.merge_video exRec1 exRec1 = exRec1 := by
  exact C2_merge_idempotent exRec1 (by decide)

/-- C3.  The merged label is one exactly when one of the two sides carries
label one, and once a stored record has label one it keeps it under any
further sequence of merges whatever the incoming labels. -/
theorem C3_label_monotone (old new : EntityRecord) (obs : List EntityRecord) :
    (((CollectPopular.merge_video old new).label) = 1
        ↔ old.label = 1 ∨ new.label = 1) ∧
    (old.label = 1 → ((obs.foldl CollectPopular.merge_video old).label) = 1) := by
  constructor
  · rw [merge_label_cases]
    by_cases hc : old.label = 1 ∨ new.label = 1
    · simp [hc]
    · simp [hc]
  · intro h1
    exact foldl_merge_label_one obs old h1

/-- Witness for C3: a label-one record keeps label one after folding in a
label-zero observation. -/
theorem C3_witness : (([exRec0].foldl CollectPopular.merge_video exRec1).label) = 1 := by
  exact (C3_label_monotone exRec1 exRec0 [exRec0]).2 (by decide)

/-- C6.  After a recompute, as performed by every harvester before its write,
total_count is the number of stored records, pos_count plus neg_count equals
total_count for a store whose labels are zero or one, and the top-level count
agrees. -/
theorem C6_aggregate_consistency (daily : Daily)
    (h : ∀ v ∈ daily.videos, v.label = 0 ∨ v.label = 1) :
    (((CollectPopular.recompute_daily_stats daily).meta.total_count)
        = ((CollectPopular.recompute_daily_stats daily).videos.length)) ∧
    (((CollectPopular.recompute_daily_stats daily).meta.pos_count)
        + ((CollectPopular.recompute_daily_stats daily).meta.neg_count)
        = ((CollectPopular.recompute_daily_stats daily).meta.total_count)) ∧
    (((CollectPopular.recompute_daily_stats daily).count)
        = ((CollectPopular.recompute_daily_stats daily).videos.length)) := by
  refine ⟨rfl, ?_, rfl⟩
  exact countP_label_split daily.videos h

/-- Witness for C6 at a concrete two-record store. -/
theorem C6_witness :
    ((CollectPopular.recompute_daily_stats exDaily).meta.pos_count)
      + ((CollectPopular.recompute_daily_stats exDaily).meta.neg_count)
      = ((CollectPopular.recompute_daily_stats exDaily).meta.total_count) := by
  exact (C6_aggregate_consistency exDaily (by decide)).2.1

/-- The boolean eligibility test, characterised arithmetically. -/
theorem eligible_iff (pubdate now_ts ds : Int) :
    UpdateSnapshots.eligible pubdate now_ts ds = true
      ↔ 0 < pubdate ∧ pubdate + ds ≤ now_ts := by
  unfold UpdateSnapshots.eligible
  split
  · rename_i hp
    simp
    omega
  · rename_i hp
    simp
    omega

/-- A non-positive publish timestamp is never eligible. -/
theorem eligible_nonpos {pubdate : Int} (now_ts ds : Int) (h : pubdate ≤ 0) :
    UpdateSnapshots.eligible pubdate now_ts ds = false := by
  unfold UpdateSnapshots.eligible
  rw [if_pos h]

/-- The need-any flag of the first DELTAS scan stays as it was when no listed
bucket is eligible. -/
theorem preFold_fst_false {snaps : List (String × Snapshot)} {pub now : Int}
    (l : List (String × Int)) (acc : Bool × Nat)
    (h : ∀ kd ∈ l, UpdateSnapshots.eligible pub now kd.2 = false) :
    ((l.foldl (UpdateSnapshots.preStep snaps pub now) acc).1) = acc.1 := by
  induction l generalizing acc with
  | nil => rfl
  | cons kd rest ih =>
    rw [List.foldl_cons]
    rw [ih _ (fun x hx => h x (List.mem_cons_of_mem _ hx))]
    have hk := h kd (List.mem_cons_self _ _)
    unfold UpdateSnapshots.preStep
    by_cases hs : (snaps.lookup kd.1).isSome
    · rw [if_pos hs]
    · rw [if_neg hs]
      simp [hk]

/-- The need-any flag of the first DELTAS scan is monotone: once set it
survives the rest of the scan. -/
theorem preFold_fst_mono {snaps : List (String × Snapshot)} {pub now : Int}
    (l : List (String × Int)) (acc : Bool × Nat) (h : acc.1 = true) :
    ((l.foldl (UpdateSnapshots.preStep snaps pub now) acc).1) = true := by
  induction l generalizing acc with
  | nil => exact h
  | cons kd rest ih =>
    rw [List.foldl_cons]
    refine ih _ ?_
    unfold UpdateSnapshots.preStep
    by_cases hs : (snaps.lookup kd.1).isSome
    · rw [if_pos hs]; exact h
    · rw [if_neg hs]
      by_cases he : UpdateSnapshots.eligible pub now kd.2 = true
      · rw [if_pos he]
      · rw [if_neg he]; exact h

/-- The need-any flag is set whenever some listed bucket is missing from the
snapshots and eligible. -/
theorem preFold_fst_true {snaps : List (String × Snapshot)} {pub now : Int}
    (l : List (String × Int)) (acc : Bool × Nat) {k : String} {ds : Int}
    (hmem : (k, ds) ∈ l) (hmiss : snaps.lookup k = none)
    (helig : UpdateSnapshots.eligible pub now ds = true) :
    ((l.foldl (UpdateSnapshots.preStep snaps pub now) acc).1) = true := by
  induction l generalizing acc with
  | nil => simp at hmem
  | cons kd rest ih =>
    rw [List.foldl_cons]
    rcases List.mem_cons.mp hmem with heq | hmem2
    · subst heq
      refine preFold_fst_mono _ _ ?_
      unfold UpdateSnapshots.preStep
      have hs : ¬ (snaps.lookup k).isSome = true := by simp [hmiss]
      rw [if_neg hs, if_pos helig]
    · exact ih _ hmem2

/-- Unfolding of one fill-loop step as an equation, keeping the folded
function intact elsewhere. -/
theorem fillStep_eq (pub now vi li co : Int) (st : UpdateSnapshots.FillState)
    (kd : String × Int) :
    UpdateSnapshots.fillStep pub now vi li co st kd
      = if (st.snapshots.lookup kd.1).isSome then
          { st with skipped_exists := st.skipped_exists + 1 }
        else if UpdateSnapshots.eligible pub now kd.2 = true then
          { snapshots := dictAssign st.snapshots kd.1
              { ts := now, view := vi, like := li, coin := co }
            features := dictAssign st.features kd.1
              { like_rate := UpdateSnapshots.like_rate li vi }
            updated := st.updated + 1
            skipped_exists := st.skipped_exists }
        else st := rfl

/-- Snapshot entries present before the fill loop keep their values. -/
theorem fillFold_pres_snap {pub now vi li co : Int} (l : List (String × Int))
    (st : UpdateSnapshots.FillState) {k : String} {s : Snapshot}
    (h : st.snapshots.lookup k = some s) :
    (((l.foldl (UpdateSnapshots.fillStep pub now vi li co) st).snapshots).lookup k)
      = some s := by
  induction l generalizing st with
  | nil => exact h
  | cons kd rest ih =>
    rw [List.foldl_cons]
    refine ih _ ?_
    rw [fillStep_eq]
    by_cases hs : (st.snapshots.lookup kd.1).isSome
    · rw [if_pos hs]; exact h
    · rw [if_neg hs]
      by_cases he : UpdateSnapshots.eligible pub now kd.2 = true
      · rw [if_pos he]
        have hne : k ≠ kd.1 := by
          intro hkk
          rw [← hkk, h] at hs
          simp at hs
        show ((dictAssign st.snapshots kd.1 _).lookup k) = some s
        rw [dictAssign_lookup_ne _ _ hne]
        exact h
      · rw [if_neg he]; exact h

/-- Feature entries keep their values through the fill loop at any key whose
snapshot is already present. -/
theorem fillFold_pres_feat {pub now vi li co : Int} (l : List (String × Int))
    (st : UpdateSnapshots.FillState) {k : String} {f : Feature}
    (hsnap : (st.snapshots.lookup k).isSome) (hfeat : st.features.lookup k = some f) :
    (((l.foldl (UpdateSnapshots.fillStep pub now vi li co) st).features).lookup k)
      = some f := by
  induction l generalizing st with
  | nil => exact hfeat
  | cons kd rest ih =>
    rw [List.foldl_cons, fillStep_eq]
    by_cases hs : (st.snapshots.lookup kd.1).isSome
    · rw [if_pos hs]; exact ih _ hsnap hfeat
    · rw [if_neg hs]
      by_cases he : UpdateSnapshots.eligible pub now kd.2 = true
      · rw [if_pos he]
        have hne : k ≠ kd.1 := by
          intro hkk
          rw [hkk] at hsnap
          exact hs hsnap
        refine ih _ ?_ ?_
        · show ((dictAssign st.snapshots kd.1 _).lookup k).isSome
          rw [dictAssign_lookup_ne _ _ hne]
          exact hsnap
        · show ((dictAssign st.features kd.1 _).lookup k) = some f
          rw [dictAssign_lookup_ne _ _ hne]
          exact hfeat
      · rw [if_neg he]; exact ih _ hsnap hfeat

/-- A snapshot key present after the fill loop was present before or belongs
to an eligible listed bucket. -/
theorem fillFold_snap_isSome_inv {pub now vi li co : Int} (l : List (String × Int))
    (st : UpdateSnapshots.FillState) {k : String}
    (h : (((l.foldl (UpdateSnapshots.fillStep pub now vi li co) st).snapshots).lookup k).isSome) :
    ((st.snapshots.lookup k).isSome)
      ∨ ∃ ds, (k, ds) ∈ l ∧ UpdateSnapshots.eligible pub now ds = true := by
  induction l generalizing st with
  | nil => exact Or.inl h
  | cons kd rest ih =>
    rw [List.foldl_cons] at h
    rcases ih _ h with hst | ⟨ds, hmem, he⟩
    · rw [fillStep_eq] at hst
      by_cases hs : (st.snapshots.lookup kd.1).isSome
      · rw [if_pos hs] at hst
        exact Or.inl hst
      · rw [if_neg hs] at hst
        by_cases he : UpdateSnapshots.eligible pub now kd.2 = true
        · rw [if_pos he] at hst
          by_cases hk : k = kd.1
          · refine Or.inr ⟨kd.2, ?_, he⟩
            rw [hk]
            exact List.mem_cons_self _ _
          · rw [dictAssign_lookup_ne _ _ hk] at hst
            exact Or.inl hst
        · rw [if_neg he] at hst
          exact Or.inl hst
    · exact Or.inr ⟨ds, List.mem_cons_of_mem _ hmem, he⟩

/-- The fill loop leaves both maps untouched at a key none of whose listed
buckets is eligible. -/
theorem fillFold_untouched {pub now vi li co : Int} (l : List (String × Int))
    (st : UpdateSnapshots.FillState) {k : String}
    (h : ∀ ds, (k, ds) ∈ l → UpdateSnapshots.eligible pub now ds = false) :
    ((((l.foldl (UpdateSnapshots.fillStep pub now vi li co) st).snapshots).lookup k)
        = st.snapshots.lookup k) ∧
    ((((l.foldl (UpdateSnapshots.fillStep pub now vi li co) st).features).lookup k)
        = st.features.lookup k) := by
  induction l generalizing st with
  | nil => exact ⟨rfl, rfl⟩
  | cons kd rest ih =>
    rw [List.foldl_cons, fillStep_eq]
    have htail := fun ds hds => h ds (List.mem_cons_of_mem _ hds)
    by_cases hs : (st.snapshots.lookup kd.1).isSome
    · rw [if_pos hs]
      exact ih _ htail
    · rw [if_neg hs]
      by_cases he : UpdateSnapshots.eligible pub now kd.2 = true
      · rw [if_pos he]
        have hne : k ≠ kd.1 := by
          intro hkk
          have hcontra := h kd.2 (by rw [hkk]; exact List.mem_cons_self _ _)
          rw [he] at hcontra
          simp at hcontra
        constructor
        · rw [(ih _ htail).1]
          exact dictAssign_lookup_ne _ _ hne
        · rw [(ih _ htail).2]
          exact dictAssign_lookup_ne _ _ hne
      · rw [if_neg he]
        exact ih _ htail

/-- An eligible missing bucket of the scanned list gets its snapshot and its
feature written by the fill loop, provided the listed keys are distinct. -/
theorem fillFold_fills {pub now vi li co : Int} (l : List (String × Int))
    (st : UpdateSnapshots.FillState) {k : String} {ds : Int}
    (hnd : (l.map Prod.fst).Nodup)
    (hmem : (k, ds) ∈ l)
    (hmiss : st.snapshots.lookup k = none)
    (helig : UpdateSnapshots.eligible pub now ds = true) :
    ((((l.foldl (UpdateSnapshots.fillStep pub now vi li co) st).snapshots).lookup k)
        = some { ts := now, view := vi, like := li, coin := co }) ∧
    ((((l.foldl (UpdateSnapshots.fillStep pub now vi li co) st).features).lookup k)
        = some { like_rate := UpdateSnapshots.like_rate li vi }) := by
  induction l generalizing st with
  | nil => simp at hmem
  | cons kd rest ih =>
    rw [List.foldl_cons]
    rcases List.mem_cons.mp hmem with heq | hmem2
    · subst heq
      rw [fillStep_eq]
      have hs : ¬ (st.snapshots.lookup k).isSome = true := by simp [hmiss]
      rw [if_neg hs, if_pos helig]
      constructor
      · refine fillFold_pres_snap _ _ ?_
        exact dictAssign_lookup_self _ _ _
      · refine fillFold_pres_feat _ _ ?_ ?_
        · show ((dictAssign st.snapshots k _).lookup k).isSome
          rw [dictAssign_lookup_self]
          rfl
        · exact dictAssign_lookup_self _ _ _
    · have hk : k ≠ kd.1 := by
        intro hkk
        have hkin : kd.1 ∈ rest.map Prod.fst := by
          rw [← hkk]
          exact List.mem_map_of_mem _ hmem2
        rw [List.map_cons] at hnd
        exact (List.nodup_cons.mp hnd).1 hkin
      refine ih _ ?_ hmem2 ?_
      · rw [List.map_cons] at hnd
        exact (List.nodup_cons.mp hnd).2
      · rw [fillStep_eq]
        by_cases hs : (st.snapshots.lookup kd.1).isSome
        · rw [if_pos hs]; exact hmiss
        · rw [if_neg hs]
          by_cases he : UpdateSnapshots.eligible pub now kd.2 = true
          · rw [if_pos he]
            show ((dictAssign st.snapshots kd.1 _).lookup k) = none
            rw [dictAssign_lookup_ne _ _ hk]
            exact hmiss
          · rw [if_neg he]; exact hmiss

/-- The keys listed in DELTAS are pairwise distinct. -/
theorem DELTAS_keys_nodup : ((UpdateSnapshots.DELTAS.map Prod.fst).Nodup) := by
  decide

/-- A key of DELTAS determines its delay. -/
theorem DELTAS_key_unique {k : String} {a b : Int}
    (h1 : (k, a) ∈ UpdateSnapshots.DELTAS) (h2 : (k, b) ∈ UpdateSnapshots.DELTAS) :
    a = b := by
  simp only [UpdateSnapshots.DELTAS, List.mem_cons, List.not_mem_nil, or_false,
    Prod.mk.injEq] at h1 h2
  rcases h1 with ⟨hk1, ha⟩ | ⟨hk1, ha⟩ | ⟨hk1, ha⟩ <;>
    rcases h2 with ⟨hk2, hb⟩ | ⟨hk2, hb⟩ | ⟨hk2, hb⟩ <;>
      subst hk1 <;> simp_all

/-- A record needing no bucket passes through the backfiller body unchanged. -/
theorem processVideo_noop (v : EntityRecord) (now_ts : Int)
    (stat : Option UpdateSnapshots.StatData)
    (h : ((UpdateSnapshots.preScan v.snapshots v.pubdate now_ts).1) = false) :
    ((UpdateSnapshots.processVideo now_ts stat v).1) = v := by
  unfold UpdateSnapshots.processVideo
  simp [h]

/-- With a needed bucket, a usable bvid and a fetched stat payload, the
backfiller body replaces the two maps with the outcome of the fill loop. -/
theorem processVideo_fill (v : EntityRecord) (now_ts : Int)
    (sd : UpdateSnapshots.StatData)
    (hpre : ((UpdateSnapshots.preScan v.snapshots v.pubdate now_ts).1) = true)
    (hb : ¬ pyStrip v.bvid = "") :
    ((UpdateSnapshots.processVideo now_ts (some sd) v).1)
      = { v with
          snapshots := ((UpdateSnapshots.DELTAS.foldl
            (UpdateSnapshots.fillStep v.pubdate now_ts (sd.view.getD 0)
              (sd.like.getD 0) (sd.coin.getD 0))
            { snapshots := v.snapshots, features := v.features,
              updated := 0, skipped_exists := 0 }).snapshots)
          features := ((UpdateSnapshots.DELTAS.foldl
            (UpdateSnapshots.fillStep v.pubdate now_ts (sd.view.getD 0)
              (sd.like.getD 0) (sd.coin.getD 0))
            { snapshots := v.snapshots, features := v.features,
              updated := 0, skipped_exists := 0 }).features) } := by
  unfold UpdateSnapshots.processVideo
  simp [hpre, hb]

/-- Every run of the backfiller body either returns the record unchanged or
replaces its two maps with the outcome of the fill loop over the fetched
stat payload. -/
theorem processVideo_result (v : EntityRecord) (now_ts : Int)
    (stat : Option UpdateSnapshots.StatData) :
    (((UpdateSnapshots.processVideo now_ts stat v).1) = v) ∨
    (∃ sd, stat = some sd ∧
      ((UpdateSnapshots.processVideo now_ts stat v).1)
        = { v with
            snapshots := ((UpdateSnapshots.DELTAS.foldl
              (UpdateSnapshots.fillStep v.pubdate now_ts (sd.view.getD 0)
                (sd.like.getD 0) (sd.coin.getD 0))
              { snapshots := v.snapshots, features := v.features,
                updated := 0, skipped_exists := 0 }).snapshots)
            features := ((UpdateSnapshots.DELTAS.foldl
              (UpdateSnapshots.fillStep v.pubdate now_ts (sd.view.getD 0)
                (sd.like.getD 0) (sd.coin.getD 0))
              { snapshots := v.snapshots, features := v.features,
                updated := 0, skipped_exists := 0 }).features) }) := by
  by_cases hpre : ((UpdateSnapshots.preScan v.snapshots v.pubdate now_ts).1) = false
  · exact Or.inl (processVideo_noop v now_ts stat hpre)
  · have hpre2 : ((UpdateSnapshots.preScan v.snapshots v.pubdate now_ts).1) = true := by
      cases hx : ((UpdateSnapshots.preScan v.snapshots v.pubdate now_ts).1)
      · exact absurd hx hpre
      · rfl
    by_cases hb : pyStrip v.bvid = ""
    · left
      unfold UpdateSnapshots.processVideo
      simp [hpre2, hb]
    · cases stat with
      | none =>
        left
        unfold UpdateSnapshots.processVideo
        simp [hpre2, hb]
      | some sd =>
        right
        exact ⟨sd, rfl, processVideo_fill v now_ts sd hpre2 hb⟩

/-- Counterexample to C4 as stated: a record whose one-hour, three-hour and
six-hour buckets are all due gets all three written in a single backfiller
invocation, not exactly one. -/
theorem C4_counterexample :
    (((UpdateSnapshots.processVideo 21601 (some exStat) exRecPub).1.snapshots.length) = 3) ∧
    ((exRecPub.snapshots.length) = 0) ∧
    ¬ (((UpdateSnapshots.processVideo 21601 (some exStat) exRecPub).1.snapshots.length)
        = exRecPub.snapshots.length + 1) := by
  decide

/-- C4 as amended: in one backfiller invocation, every eligible unfilled
bucket of an entity with a usable bvid and a fetched stat payload gets its
snapshot and feature written from that one payload, in the DELTAS scan order
of increasing delay. -/
theorem C4_fills_every_eligible (v : EntityRecord) (now_ts : Int)
    (sd : UpdateSnapshots.StatData) (k : String) (ds : Int)
    (hb : ¬ pyStrip v.bvid = "")
    (hmem : (k, ds) ∈ UpdateSnapshots.DELTAS)
    (hmiss : v.snapshots.lookup k = none)
    (hpub : 0 < v.pubdate) (hdl : v.pubdate + ds ≤ now_ts) :
    (((UpdateSnapshots.processVideo now_ts (some sd) v).1.snapshots.lookup k)
        = some { ts := now_ts, view := sd.view.getD 0, like := sd.like.getD 0,
                 coin := sd.coin.getD 0 }) ∧
    (((UpdateSnapshots.processVideo now_ts (some sd) v).1.features.lookup k)
        = some { like_rate := UpdateSnapshots.like_rate (sd.like.getD 0)
                   (sd.view.getD 0) }) := by
  have helig : UpdateSnapshots.eligible v.pubdate now_ts ds = true :=
    (eligible_iff _ _ _).mpr ⟨hpub, hdl⟩
  have hpre : ((UpdateSnapshots.preScan v.snapshots v.pubdate now_ts).1) = true :=
    preFold_fst_true _ _ hmem hmiss helig
  rw [processVideo_fill v now_ts sd hpre hb]
  exact fillFold_fills _ _ DELTAS_keys_nodup hmem hmiss helig

/-- Witness for the amended C4: the due one-hour bucket of a fresh record is
filled with the fetched counters. -/
theorem C4_witness :
    ((UpdateSnapshots.processVideo 7201 (some exStat) exRecPub).1.snapshots.lookup "1h")
      = some { ts := 7201, view := exStat.view.getD 0, like := exStat.like.getD 0,
               coin := exStat.coin.getD 0 } := by
  exact (C4_fills_every_eligible exRecPub 7201 exStat "1h" 3600 (by decide) (by decide)
    (by decide) (by decide) (by decide)).1

/-- C5.  A stored bucket snapshot is never overwritten by the backfiller
body; a bucket key of DELTAS is present afterwards only when it was present
before or its deadline had passed at observation time; and an attempt before
the deadline leaves both the snapshot and the feature entry of that bucket
unchanged. -/
theorem C5_deadline_gating (v : EntityRecord) (now_ts : Int)
    (stat : Option UpdateSnapshots.StatData) (k : String) (ds : Int) :
    (∀ s, v.snapshots.lookup k = some s →
        (((UpdateSnapshots.processVideo now_ts stat v).1.snapshots.lookup k) = some s)) ∧
    ((k, ds) ∈ UpdateSnapshots.DELTAS →
      (((UpdateSnapshots.processVideo now_ts stat v).1.snapshots.lookup k).isSome) →
      ((v.snapshots.lookup k).isSome ∨ (0 < v.pubdate ∧ v.pubdate + ds ≤ now_ts))) ∧
    ((k, ds) ∈ UpdateSnapshots.DELTAS → ¬ (0 < v.pubdate ∧ v.pubdate + ds ≤ now_ts) →
      ((((UpdateSnapshots.processVideo now_ts stat v).1.snapshots.lookup k)
          = v.snapshots.lookup k) ∧
       (((UpdateSnapshots.processVideo now_ts stat v).1.features.lookup k)
          = v.features.lookup k))) := by
  rcases processVideo_result v now_ts stat with hres | ⟨sd, hstat, hres⟩
  · rw [hres]
    exact ⟨fun s hs => hs, fun _ h2 => Or.inl h2, fun _ _ => ⟨rfl, rfl⟩⟩
  · rw [hres]
    refine ⟨fun s hs => ?_, fun hmem hsome => ?_, fun hmem hne => ?_⟩
    · exact fillFold_pres_snap _ _ hs
    · rcases fillFold_snap_isSome_inv _ _ hsome with h1 | ⟨ds2, hm2, he2⟩
      · exact Or.inl h1
      · right
        have hds : ds2 = ds := DELTAS_key_unique hm2 hmem
        rw [← hds]
        exact (eligible_iff _ _ _).mp he2
    · have hall : ∀ ds2, (k, ds2) ∈ UpdateSnapshots.DELTAS →
          UpdateSnapshots.eligible v.pubdate now_ts ds2 = false := by
        intro ds2 hm2
        have hds : ds2 = ds := DELTAS_key_unique hm2 hmem
        subst hds
        cases hel : UpdateSnapshots.eligible v.pubdate now_ts ds2
        · rfl
        · exact absurd ((eligible_iff _ _ _).mp hel) hne
      exact fillFold_untouched _ _ hall

/-- Witness for C5: the stored trending bucket of a record survives a
backfiller pass. -/
theorem C5_witness :
    ((UpdateSnapshots.processVideo 100 none exRec1).1.snapshots.lookup "0h")
      = some exSnap0 := by
  exact (C5_deadline_gating exRec1 100 none "0h" 3600).1 exSnap0 (by decide)

/-- C10.  A record whose publish timestamp is missing, zero or negative is
never eligible for any bucket at any time, the backfiller body leaves it
entirely unchanged, and a negative record built from a feed item lacking
both pubdate and ctime carries publish timestamp zero. -/
theorem C10_no_pubdate_no_backfill (v : EntityRecord) (now_ts : Int)
    (stat : Option UpdateSnapshots.StatData) (item : FeedItem) (ts : Int)
    (h : v.pubdate ≤ 0) :
    (((UpdateSnapshots.processVideo now_ts stat v).1) = v) ∧
    (∀ ds, UpdateSnapshots.eligible v.pubdate now_ts ds = false) ∧
    (item.pubdate = none → item.ctime = none →
      ∀ r, AddNegatives.build_negative_record item ts = some r → r.pubdate = 0) := by
  refine ⟨?_, fun ds => eligible_nonpos _ _ h, ?_⟩
  · refine processVideo_noop _ _ _ ?_
    exact preFold_fst_false _ _ (fun kd _ => eligible_nonpos _ _ h)
  · intro hp hc r hr
    simp only [AddNegatives.build_negative_record] at hr
    cases hbv : item.bvid with
    | none => rw [hbv] at hr; simp at hr
    | some b =>
      rw [hbv] at hr
      by_cases hb : b = ""
      · simp [hb] at hr
      · simp only [hb, if_false, Option.some.injEq] at hr
        rw [← hr]
        show pyOrInt item.pubdate (pyOrInt item.ctime 0) = 0
        rw [hp, hc]
        rfl

/-- Witness for C10: a zero-pubdate record passes through the backfiller
body untouched, and the sample incomplete feed item builds a record with
publish timestamp zero. -/
theorem C10_witness :
    ((UpdateSnapshots.processVideo 999999 (some exStat) exRecNoPub).1) = exRecNoPub := by
  exact (C10_no_pubdate_no_backfill exRecNoPub 999999 (some exStat) exItemNoPub 5
    (by decide)).1

/-- Counterexample to C7 as stated: a later run of the trending harvester on
an existing daily document overwrites its stored capture_ts with the new
run timestamp, and no separate last-run field exists to absorb the update. -/
theorem C7_counterexample :
    (exDaily.capture_ts = 100) ∧
    (((CollectPopular.load_or_init_daily (some exDaily) "2025-01-01" 200).capture_ts) = 200) ∧
    ¬ (((CollectPopular.load_or_init_daily (some exDaily) "2025-01-01" 200).capture_ts) = 100) := by
  refine ⟨rfl, rfl, ?_⟩
  decide

/-- C7 as amended: capture_ts is overwritten with the current run timestamp
on every run of every harvester, acting as a most-recent-run stamp, while
the stored records are preserved; no first-run timestamp is kept. -/
theorem C7_capture_ts_overwritten (existing : Option Daily) (day : String)
    (ts : Int) (d : Daily) (ts2 : Int) :
    (((CollectPopular.load_or_init_daily existing day ts).capture_ts) = ts) ∧
    (((CollectPopular.load_or_init_daily (some d) day ts).videos) = d.videos) ∧
    (((CollectPopular.set_capture_ts d ts2).capture_ts) = ts2) ∧
    (((CollectPopular.set_capture_ts d ts2).videos) = d.videos) := by
  refine ⟨?_, rfl, rfl, rfl⟩
  cases existing <;> rfl

/-- C8.  Both like-rate calculators return None rather than failing when the
numerator or the denominator is missing or the denominator is zero or
negative, and otherwise return the ratio rounded to six fractional digits. -/
theorem C8_like_rate_contract (like view : Option Int) (l v : Int) :
    (like = none → CollectPopular.like_rate like view = none) ∧
    (view = none → CollectPopular.like_rate like view = none) ∧
    (v ≤ 0 → CollectPopular.like_rate like (some v) = none) ∧
    (0 < v → CollectPopular.like_rate (some l) (some v)
        = some (round6 ((l : ℚ) / (v : ℚ)))) ∧
    (v ≤ 0 → UpdateSnapshots.like_rate l v = none) ∧
    (0 < v → UpdateSnapshots.like_rate l v = some (round6 ((l : ℚ) / (v : ℚ)))) := by
  refine ⟨?_, ?_, ?_, ?_, ?_, ?_⟩
  · intro h
    subst h
    rfl
  · intro h
    subst h
    cases like <;> rfl
  · intro h
    cases like with
    | none => rfl
    | some l2 =>
      show (if v ≤ 0 then none else some (round6 ((l2 : ℚ) / (v : ℚ)))) = none
      rw [if_pos h]
  · intro h
    show (if v ≤ 0 then none else some (round6 ((l : ℚ) / (v : ℚ))))
        = some (round6 ((l : ℚ) / (v : ℚ)))
    rw [if_neg (by omega)]
  · intro h
    show (if v ≤ 0 then none else some (round6 ((l : ℚ) / (v : ℚ)))) = none
    rw [if_pos h]
  · intro h
    show (if v ≤ 0 then none else some (round6 ((l : ℚ) / (v : ℚ))))
        = some (round6 ((l : ℚ) / (v : ℚ)))
    rw [if_neg (by omega)]

/-- Witness for C8: a positive denominator yields the rounded ratio. -/
theorem C8_witness :
    CollectPopular.like_rate (some 5) (some 10)
      = some (round6 ((5 : ℚ) / (10 : ℚ))) := by
  exact (C8_like_rate_contract (some 5) (some 10) 5 10).2.2.2.1 (by norm_num)

/-- Every page number the loop requests is at least the page it started at. -/
theorem crawlFrom_mem_ge (feed : Nat → CollectPopular.PageResp) :
    ∀ (fuel pn m : Nat), m ∈ CollectPopular.crawlFrom feed pn fuel → pn ≤ m := by
  intro fuel
  induction fuel with
  | zero =>
    intro pn m h
    simp [CollectPopular.crawlFrom] at h
  | succ fuel ih =>
    intro pn m h
    rw [CollectPopular.crawlFrom] at h
    rcases List.mem_cons.mp h with rfl | hm
    · exact Nat.le_refl _
    · by_cases hstop : CollectPopular.stopAfter (feed pn) = true
      · rw [if_pos hstop] at hm
        simp at hm
      · rw [if_neg hstop] at hm
        exact Nat.le_of_succ_le (ih (pn + 1) m hm)

/-- Once the loop has requested a page whose payload holds an empty list, no
later page is requested: every requested page number is at most that one. -/
theorem crawlFrom_stop (feed : Nat → CollectPopular.PageResp) {k : Nat}
    (hk : feed k = CollectPopular.PageResp.ok []) :
    ∀ (fuel pn m : Nat), k ∈ CollectPopular.crawlFrom feed pn fuel →
      m ∈ CollectPopular.crawlFrom feed pn fuel → m ≤ k := by
  intro fuel
  induction fuel with
  | zero =>
    intro pn m hkm _
    simp [CollectPopular.crawlFrom] at hkm
  | succ fuel ih =>
    intro pn m hkm hm
    rw [CollectPopular.crawlFrom] at hkm hm
    by_cases hstop : CollectPopular.stopAfter (feed pn) = true
    · rw [if_pos hstop] at hkm hm
      have hkpn : k = pn := by simpa using hkm
      have hmpn : m = pn := by simpa using hm
      rw [hmpn, hkpn]
    · rw [if_neg hstop] at hkm hm
      have hpnk : ¬ k = pn := by
        intro he
        apply hstop
        rw [← he, hk]
        rfl
      have hkm2 : k ∈ CollectPopular.crawlFrom feed (pn + 1) fuel := by
        rcases List.mem_cons.mp hkm with he | h2
        · exact absurd he hpnk
        · exact h2
      rcases List.mem_cons.mp hm with rfl | hm2
      · exact Nat.le_of_succ_le (crawlFrom_mem_ge feed fuel (m + 1) k hkm2)
      · exact ih (pn + 1) m hkm2 hm2

/-- Counterexample to C9 as stated: on a feed with two non-empty pages
followed by empty ones, the harvester requests pages one, two and three; the
empty page three is requested, which the claim rules out. -/
theorem C9_counterexample :
    (CollectPopular.requestedPages exFeed = [1, 2, 3]) ∧
    (3 ∈ CollectPopular.requestedPages exFeed) := by
  decide

/-- C9 as amended: the harvester requests pages up to and including the
first empty page it reaches, then hard-stops: no page beyond a requested
empty page is ever requested. -/
theorem C9_stops_at_first_empty (feed : Nat → CollectPopular.PageResp) (k m : Nat)
    (hk : feed k = CollectPopular.PageResp.ok [])
    (hkreq : k ∈ CollectPopular.requestedPages feed)
    (hmreq : m ∈ CollectPopular.requestedPages feed) :
    m ≤ k := by
  exact crawlFrom_stop feed hk CollectPopular.PN_MAX 1 m hkreq hmreq

/-- Witness for the amended C9 on the sample feed, whose page three is the
first empty one: page two precedes it. -/
theorem C9_witness : (2 : Nat) ≤ 3 := by
  exact C9_stops_at_first_empty exFeed 3 2 (by decide) (by decide) (by decide)

